import Mathlib

/-!
Shallow embedding of the java-type-checker package (files
java_type_checker/types.py and java_type_checker/expressions.py).

Python type objects are identified by numeric ids (object identity); a
TypeEnv records the registry built at program start: for each id its name,
its list of direct supertypes, which Python class it is an instance of
(Type, ClassOrInterface, or the NullType singleton), its constructor
parameter list and its method table.  The checking routines return Except
values whose error constructors mirror the exceptions the source raises
(JavaTypeError messages split by raise site, NoSuchMethod, and Python
AttributeError / RecursionError for attribute and recursion failures).
-/

abbrev TypeId := Nat

inductive TypeKind where
  | plain
  | classOrInterface
  | nullType
deriving DecidableEq

structure JMethod where
  name : String
  argument_types : List TypeId
  return_type : Option TypeId
deriving DecidableEq

structure TypeEnv where
  types : List TypeId
  name : TypeId → String
  supers : TypeId → List TypeId
  kind : TypeId → TypeKind
  ctorArgs : TypeId → List TypeId
  methods : TypeId → List JMethod
  booleanId : TypeId
  intId : TypeId
  doubleId : TypeId
  nullId : TypeId

inductive PyError where
  | noSuchMethod (typeName methodName : String)
  | noMethods (typeName : String)
  | notInstantiable (typeName : String)
  | methodArity (typeName methodName : String) (expected got : Nat)
  | methodArgTypes (typeName methodName : String) (expected got : List String)
  | ctorArity (typeName : String) (expected got : Nat)
  | ctorArgTypes (typeName : String) (expected got : List String)
  | attributeError (attr : String)
  | indexError
  | recursionError
deriving DecidableEq

deriving instance DecidableEq for Except

/-! ### Type.is_subtype_of (types.py lines 12-28)

The source grows the list `allSupers` (seeded with `self`) by repeated
passes that append every not-yet-seen direct supertype of a listed type,
until a pass adds nothing, and then tests `other in allSupers`.  `addAll`
appends the unseen members of one supertype list, `addNewSupers` is one
pass over the current list, and `saturate` is the while loop; the source
iterates the growing list inside a pass, which only makes a pass absorb
more than one frontier at once, so the loop reaches the same fixpoint. -/

def addAll (cur ss : List TypeId) : List TypeId :=
  ss.foldl (fun c s => if s ∈ c then c else c ++ [s]) cur

def addFrom (env : TypeEnv) (cur : List TypeId) (l : List TypeId) : List TypeId :=
  l.foldl (fun c t => addAll c (env.supers t)) cur

def addNewSupers (env : TypeEnv) (acc : List TypeId) : List TypeId :=
  addFrom env acc acc

def saturate (env : TypeEnv) : Nat → List TypeId → List TypeId
  | 0, acc => acc
  | fuel+1, acc =>
    let acc2 := addNewSupers env acc
    if acc2.length = acc.length then acc else saturate env fuel acc2

def allSupers (env : TypeEnv) (t : TypeId) : List TypeId :=
  saturate env env.types.length [t]

def is_subtype_of (env : TypeEnv) (a b : TypeId) : Bool :=
  match env.kind a with
  | .nullType => true
  | _ => decide (b ∈ allSupers env a)

def is_supertype_of (env : TypeEnv) (a b : TypeId) : Bool :=
  match env.kind a with
  | .nullType => false
  | _ => is_subtype_of env b a

/-- Reachability along direct-supertype edges: zero or more steps. -/
def Reaches (env : TypeEnv) (a b : TypeId) : Prop :=
  Relation.ReflTransGen (fun x y => y ∈ env.supers x) a b

/-- The registry graph is closed: supertypes of registered types are registered. -/
def Closed (env : TypeEnv) : Prop :=
  ∀ t ∈ env.types, ∀ s ∈ env.supers t, s ∈ env.types

instance (env : TypeEnv) : Decidable (Closed env) := by
  unfold Closed; infer_instance

/-! ### ClassOrInterface.method_named (types.py lines 61-97)

The method table is a dict comprehension over the constructor argument
(later duplicates overwrite earlier ones), `method_named` consults the own
table and then recurses into the direct supertypes in order, catching only
NoSuchMethod.  A plain Type has no `method_named` attribute (Python
AttributeError) and the NullType override always raises NoSuchMethod.
`method_named` carries fuel for the recursion depth, standing for the
Python recursion limit (exhaustion = RecursionError). -/

def dictGet (ms : List JMethod) (n : String) : Option JMethod :=
  ms.foldl (fun acc m => if m.name = n then some m else acc) none

def isNoSuchMethod : PyError → Bool
  | .noSuchMethod _ _ => true
  | _ => false

def searchSupers (env : TypeEnv) (rec : TypeId → String → Except PyError JMethod) :
    List TypeId → String → TypeId → Except PyError JMethod
  | [], n, t => .error (.noSuchMethod (env.name t) n)
  | s :: rest, n, t =>
    match rec s n with
    | .ok m => .ok m
    | .error e =>
      if isNoSuchMethod e then searchSupers env rec rest n t else .error e

def methodStep (env : TypeEnv) (rec : TypeId → String → Except PyError JMethod)
    (t : TypeId) (n : String) : Except PyError JMethod :=
  match env.kind t with
  | .nullType => .error (.noSuchMethod (env.name t) n)
  | .plain => .error (.attributeError "method_named")
  | .classOrInterface =>
    match dictGet (env.methods t) n with
    | some m => .ok m
    | none => searchSupers env rec (env.supers t) n t

def method_named (env : TypeEnv) : Nat → TypeId → String → Except PyError JMethod
  | 0, _, _ => .error .recursionError
  | fuel+1, t, n => methodStep env (method_named env fuel) t n

/-! Specification-side view of the lookup order: the depth-first preorder
listing of the hierarchy (own node first, then the subtrees of the direct
supertypes in declared order), truncated by the same fuel. -/

def preorderList (rec : TypeId → List TypeId) : List TypeId → List TypeId
  | [] => []
  | s :: rest => rec s ++ preorderList rec rest

def preorder (env : TypeEnv) : Nat → TypeId → List TypeId
  | 0, _ => []
  | fuel+1, t => t :: preorderList (preorder env fuel) (env.supers t)

def firstHit (env : TypeEnv) (n : String) : List TypeId → Option JMethod
  | [] => none
  | u :: l =>
    match dictGet (env.methods u) n with
    | some m => some m
    | none => firstHit env n l

def hitResult (env : TypeEnv) (n : String) (t : TypeId) (l : List TypeId) :
    Except PyError JMethod :=
  match firstHit env n l with
  | some m => .ok m
  | none => .error (.noSuchMethod (env.name t) n)

/-- A hierarchy node on which `method_named` behaves like a table lookup:
either a ClassOrInterface, or the NullType singleton (whose table and
supertype list the source leaves empty). -/
def goodNode (env : TypeEnv) (u : TypeId) : Prop :=
  env.kind u = .classOrInterface ∨
    (env.kind u = .nullType ∧ env.methods u = [] ∧ env.supers u = [])

instance (env : TypeEnv) (u : TypeId) : Decidable (goodNode env u) := by
  unfold goodNode; infer_instance

/-! ### Expressions (expressions.py)

`declared_type` is an attribute only Variable and NullLiteral carry;
reading it on any other variant raises AttributeError.  `static_type`
of a MethodCall reads `receiver.declared_type` (not the receiver's
`static_type()`), resolves the method and returns its `return_type`,
which may be Python None (hence the Option in the result). -/

inductive Expr where
  | var (name : String) (declared_type : TypeId)
  | literal (value : String) (type : TypeId)
  | nullLiteral
  | methodCall (receiver : Expr) (method_name : String) (args : List Expr)
  | constructorCall (instantiated_type : TypeId) (args : List Expr)

def declaredTypeAttr (env : TypeEnv) : Expr → Option TypeId
  | .var _ dt => some dt
  | .nullLiteral => some env.nullId
  | _ => none

def static_type (env : TypeEnv) (fuel : Nat) : Expr → Except PyError (Option TypeId)
  | .var _ dt => .ok (some dt)
  | .literal _ ty => .ok (some ty)
  | .nullLiteral => .ok (some env.nullId)
  | .methodCall receiver mn _ =>
    match declaredTypeAttr env receiver with
    | none => .error (.attributeError "declared_type")
    | some t =>
      match method_named env fuel t mn with
      | .error e => .error e
      | .ok m => .ok m.return_type
  | .constructorCall ty _ => .ok (some ty)

/-- The receiver guard of MethodCall.check_types and the primitive guard of
ConstructorCall.check_types (expressions.py lines 79 and 122): a chain of
`is_subtype_of` tests against the boolean, int and double singletons. -/
def primReceiver (env : TypeEnv) (t : TypeId) : Bool :=
  is_subtype_of env t env.booleanId || is_subtype_of env t env.intId ||
    is_subtype_of env t env.doubleId

/-- `typeGot.is_subtype_of(typeExp)` where typeGot may be Python None. -/
def subtypeCheckVal (env : TypeEnv) (got : Option TypeId) (expected : TypeId) :
    Except PyError Bool :=
  match got with
  | some tg => .ok (is_subtype_of env tg expected)
  | none => .error (.attributeError "is_subtype_of")

/-- The `names` helper (expressions.py line 148) applied to the collected
argument types: `e.name` on Python None raises AttributeError. -/
def gotNames (env : TypeEnv) : List (Option TypeId) → Except PyError (List String)
  | [] => .ok []
  | some t :: rest =>
    match gotNames env rest with
    | .ok l => .ok (env.name t :: l)
    | .error e => .error e
  | none :: _ => .error (.attributeError "name")

def expectedNames (env : TypeEnv) (l : List TypeId) : List String :=
  l.map env.name

/-- First loop of both check_types bodies: for each argument, append
`arg.static_type()` to typesGot and then run `arg.check_types()`. -/
def collectArgs (env : TypeEnv) (rec : Expr → Except PyError Unit) (fuel : Nat) :
    List Expr → Except PyError (List (Option TypeId))
  | [] => .ok []
  | a :: rest =>
    match static_type env fuel a with
    | .error e => .error e
    | .ok t =>
      match rec a with
      | .error e => .error e
      | .ok _ =>
        match collectArgs env rec fuel rest with
        | .error e => .error e
        | .ok ts => .ok (t :: ts)

/-- Second loop of MethodCall.check_types (lines 95-101): re-check the
argument, recompute its static type, and raise on the first subtype
mismatch unless the dead guard `typesGot != argsExpected` suppresses it. -/
def argPairsCheck (env : TypeEnv) (rec : Expr → Except PyError Unit) (fuel : Nat)
    (cname mname : String) (argsExpectedAll : List TypeId)
    (typesGotAll : List (Option TypeId)) :
    List TypeId → List Expr → Except PyError Unit
  | _, [] => .ok ()
  | [], _ :: _ => .error .indexError
  | typeExp :: restExp, expressionGot :: restGot =>
    match rec expressionGot with
    | .error e => .error e
    | .ok _ =>
      match static_type env fuel expressionGot with
      | .error e => .error e
      | .ok typeGot =>
        match subtypeCheckVal env typeGot typeExp with
        | .error e => .error e
        | .ok sub =>
          if sub = false ∧ typesGotAll ≠ argsExpectedAll.map some then
            match gotNames env typesGotAll with
            | .ok gl =>
              .error (.methodArgTypes cname mname (expectedNames env argsExpectedAll) gl)
            | .error e => .error e
          else
            argPairsCheck env rec fuel cname mname argsExpectedAll typesGotAll
              restExp restGot

/-- Second loop of ConstructorCall.check_types (lines 134-139): same shape,
but without the redundant re-check of the argument. -/
def ctorPairsCheck (env : TypeEnv) (fuel : Nat) (cname : String)
    (argsExpAll : List TypeId) (typesGotAll : List (Option TypeId)) :
    List TypeId → List Expr → Except PyError Unit
  | _, [] => .ok ()
  | [], _ :: _ => .error .indexError
  | typeExp :: restExp, argGot :: restGot =>
    match static_type env fuel argGot with
    | .error e => .error e
    | .ok typeGot =>
      match subtypeCheckVal env typeGot typeExp with
      | .error e => .error e
      | .ok sub =>
        if sub = false ∧ typesGotAll ≠ argsExpAll.map some then
          match gotNames env typesGotAll with
          | .ok gl => .error (.ctorArgTypes cname (expectedNames env argsExpAll) gl)
          | .error e => .error e
        else
          ctorPairsCheck env fuel cname argsExpAll typesGotAll restExp restGot

/-- One level of check_types; `rec` is the recursive call on child
expressions, fuel feeds `method_named` and the children. -/
def checkStep (env : TypeEnv) (rec : Expr → Except PyError Unit) (fuel : Nat) :
    Expr → Except PyError Unit
  | .var _ _ => .ok ()
  | .literal _ _ => .ok ()
  | .nullLiteral => .ok ()
  | .methodCall receiver method_name args =>
    match declaredTypeAttr env receiver with
    | none => .error (.attributeError "declared_type")
    | some classtype =>
      if primReceiver env classtype then .error (.noMethods (env.name classtype))
      else
        match method_named env fuel classtype method_name with
        | .error e => .error e
        | .ok method =>
          match collectArgs env rec fuel args with
          | .error e => .error e
          | .ok typesGot =>
            if method.argument_types.length ≠ args.length then
              .error (.methodArity (env.name classtype) method_name
                method.argument_types.length args.length)
            else
              argPairsCheck env rec fuel (env.name classtype) method_name
                method.argument_types typesGot method.argument_types args
  | .constructorCall instantiated_type args =>
    let classType := instantiated_type
    if classType = env.nullId then .error (.notInstantiable "null")
    else if primReceiver env classType then
      .error (.notInstantiable (env.name classType))
    else
      match env.kind classType with
      | .plain => .error (.attributeError "constructor")
      | _ =>
        match collectArgs env rec fuel args with
        | .error e => .error e
        | .ok typesGot =>
          if (env.ctorArgs classType).length ≠ args.length then
            .error (.ctorArity (env.name classType) (env.ctorArgs classType).length
              args.length)
          else
            ctorPairsCheck env fuel (env.name classType) (env.ctorArgs classType)
              typesGot (env.ctorArgs classType) args

def check_types (env : TypeEnv) : Nat → Expr → Except PyError Unit
  | 0, _ => .error .recursionError
  | fuel+1, e => checkStep env (check_types env fuel) fuel e

/-! Specification-side view of the argument loop: the first failure, in
left-to-right order, where each argument contributes its `static_type()`
and then its `check_types()` in that order. -/

def argStep (env : TypeEnv) (fuel : Nat) (a : Expr) : Except PyError Unit :=
  match static_type env fuel a with
  | .error e => .error e
  | .ok _ => check_types env fuel a

def firstFail (env : TypeEnv) (fuel : Nat) : List Expr → Option PyError
  | [] => none
  | a :: rest =>
    match argStep env fuel a with
    | .error e => some e
    | .ok _ => firstFail env fuel rest

/-! ### Object identity for supertype lists (types.py lines 7-10, 61-66)

`Type.__init__(self, name, direct_supertypes=[])` stores the caller's list
object itself; the default list is a single object created when the def is
evaluated and shared by every call that omits the argument.  The heap maps
list-object ids to contents; `mkTypeDefault` is construction with the
default argument, `heapAppend` is an in-place `append` on a list object. -/

structure TypeObj where
  oname : String
  supRef : Nat

structure PyHeap where
  lists : Nat → List TypeId

def typeInitDefaultRef : Nat := 0

def initHeap : PyHeap := ⟨fun _ => []⟩

def mkTypeDefault (nm : String) : TypeObj := ⟨nm, typeInitDefaultRef⟩

def mkTypeWith (nm : String) (ref : Nat) : TypeObj := ⟨nm, ref⟩

def heapAppend (h : PyHeap) (r : Nat) (x : TypeId) : PyHeap :=
  ⟨fun i => if i = r then h.lists i ++ [x] else h.lists i⟩

def direct_supertypes (h : PyHeap) (t : TypeObj) : List TypeId :=
  h.lists t.supRef

/-! ### A concrete registry for witnesses and counterexamples

Ids: 0 void, 1 boolean, 2 int, 3 double, 4 null, 5 Object, 6 Shape,
7 Circle (a diamond: Circle lists both Shape and Object, Shape lists
Object), 8 A (a class that lists the null type as direct supertype). -/

def env0 : TypeEnv where
  types := [0, 1, 2, 3, 4, 5, 6, 7, 8]
  name := fun t =>
    match t with
    | 0 => "void" | 1 => "boolean" | 2 => "int" | 3 => "double"
    | 4 => "null" | 5 => "Object" | 6 => "Shape" | 7 => "Circle"
    | 8 => "A" | _ => ""
  supers := fun t =>
    match t with
    | 7 => [6, 5] | 6 => [5] | 8 => [4] | _ => []
  kind := fun t =>
    match t with
    | 4 => .nullType
    | 5 => .classOrInterface | 6 => .classOrInterface
    | 7 => .classOrInterface | 8 => .classOrInterface
    | _ => .plain
  ctorArgs := fun t => match t with | 7 => [3] | _ => []
  methods := fun t =>
    match t with
    | 5 => [⟨"hashCode", [], some 2⟩]
    | 6 => [⟨"area", [], some 3⟩, ⟨"scale", [3], some 0⟩]
    | 7 => [⟨"area", [], some 2⟩]
    | _ => []
  booleanId := 1
  intId := 2
  doubleId := 3
  nullId := 4

/-! ### Lemmas about the ancestor-closure computation -/

theorem addAll_cons (cur : List TypeId) (s : TypeId) (rest : List TypeId) :
    addAll cur (s :: rest) = addAll (if s ∈ cur then cur else cur ++ [s]) rest := rfl

theorem mem_addAll {x : TypeId} : ∀ {ss cur : List TypeId},
    x ∈ addAll cur ss ↔ x ∈ cur ∨ x ∈ ss := by
  intro ss
  induction ss with
  | nil => intro cur; simp [addAll]
  | cons s rest ih =>
    intro cur
    rw [addAll_cons]
    by_cases h : s ∈ cur
    · rw [if_pos h, ih]
      constructor
      · rintro (hx | hx)
        · exact Or.inl hx
        · exact Or.inr (List.mem_cons_of_mem _ hx)
      · rintro (hx | hx)
        · exact Or.inl hx
        · rcases List.mem_cons.mp hx with rfl | hx
          · exact Or.inl h
          · exact Or.inr hx
    · rw [if_neg h, ih]
      simp only [List.mem_append, List.mem_cons, List.mem_singleton,
        List.not_mem_nil, or_false]
      tauto

theorem addAll_eq_append : ∀ (ss cur : List TypeId),
    ∃ ext, addAll cur ss = cur ++ ext := by
  intro ss
  induction ss with
  | nil => intro cur; exact ⟨[], by simp [addAll]⟩
  | cons s rest ih =>
    intro cur
    rw [addAll_cons]
    by_cases h : s ∈ cur
    · rw [if_pos h]; exact ih cur
    · rw [if_neg h]
      obtain ⟨ext, hext⟩ := ih (cur ++ [s])
      exact ⟨s :: ext, by rw [hext, List.append_assoc]; rfl⟩

theorem nodup_addAll : ∀ (ss cur : List TypeId), cur.Nodup → (addAll cur ss).Nodup := by
  intro ss
  induction ss with
  | nil => intro cur h; simpa [addAll] using h
  | cons s rest ih =>
    intro cur h
    rw [addAll_cons]
    by_cases hs : s ∈ cur
    · rw [if_pos hs]; exact ih cur h
    · rw [if_neg hs]
      refine ih _ (List.nodup_append.mpr ⟨h, List.nodup_singleton s, ?_⟩)
      intro x hx hx2
      rcases List.mem_singleton.mp hx2 with rfl
      exact hs hx

theorem addFrom_cons (env : TypeEnv) (cur : List TypeId) (t : TypeId)
    (l : List TypeId) :
    addFrom env cur (t :: l) = addFrom env (addAll cur (env.supers t)) l := rfl

theorem mem_addFrom {env : TypeEnv} {x : TypeId} : ∀ {l cur : List TypeId},
    x ∈ addFrom env cur l ↔ x ∈ cur ∨ ∃ t ∈ l, x ∈ env.supers t := by
  intro l
  induction l with
  | nil => intro cur; simp [addFrom]
  | cons t rest ih =>
    intro cur
    rw [addFrom_cons, ih, mem_addAll]
    constructor
    · rintro ((hx | hx) | ⟨u, hu, hxu⟩)
      · exact Or.inl hx
      · exact Or.inr ⟨t, List.mem_cons_self t rest, hx⟩
      · exact Or.inr ⟨u, List.mem_cons_of_mem _ hu, hxu⟩
    · rintro (hx | ⟨u, hu, hxu⟩)
      · exact Or.inl (Or.inl hx)
      · rcases List.mem_cons.mp hu with rfl | hu
        · exact Or.inl (Or.inr hxu)
        · exact Or.inr ⟨u, hu, hxu⟩

theorem addFrom_eq_append (env : TypeEnv) : ∀ (l cur : List TypeId),
    ∃ ext, addFrom env cur l = cur ++ ext := by
  intro l
  induction l with
  | nil => intro cur; exact ⟨[], by simp [addFrom]⟩
  | cons t rest ih =>
    intro cur
    rw [addFrom_cons]
    obtain ⟨e1, he1⟩ := addAll_eq_append (env.supers t) cur
    obtain ⟨e2, he2⟩ := ih (addAll cur (env.supers t))
    exact ⟨e1 ++ e2, by rw [he2, he1, List.append_assoc]⟩

theorem nodup_addFrom (env : TypeEnv) : ∀ (l cur : List TypeId),
    cur.Nodup → (addFrom env cur l).Nodup := by
  intro l
  induction l with
  | nil => intro cur h; simpa [addFrom] using h
  | cons t rest ih =>
    intro cur h
    rw [addFrom_cons]
    exact ih _ (nodup_addAll _ _ h)

theorem mem_addNewSupers {env : TypeEnv} {acc : List TypeId} {x : TypeId} :
    x ∈ addNewSupers env acc ↔ x ∈ acc ∨ ∃ t ∈ acc, x ∈ env.supers t :=
  mem_addFrom

theorem addNewSupers_eq_append (env : TypeEnv) (acc : List TypeId) :
    ∃ ext, addNewSupers env acc = acc ++ ext :=
  addFrom_eq_append env acc acc

theorem addNewSupers_of_length_eq {env : TypeEnv} {acc : List TypeId}
    (h : (addNewSupers env acc).length = acc.length) :
    addNewSupers env acc = acc := by
  obtain ⟨ext, hext⟩ := addNewSupers_eq_append env acc
  rw [hext] at h ⊢
  have hlen : ext.length = 0 := by
    rw [List.length_append] at h; omega
  rw [List.length_eq_zero.mp hlen, List.append_nil]

theorem saturate_succ (env : TypeEnv) (fuel : Nat) (acc : List TypeId) :
    saturate env (fuel+1) acc =
      if (addNewSupers env acc).length = acc.length then acc
      else saturate env fuel (addNewSupers env acc) := rfl

theorem saturate_eq_append (env : TypeEnv) : ∀ (fuel : Nat) (acc : List TypeId),
    ∃ ext, saturate env fuel acc = acc ++ ext := by
  intro fuel
  induction fuel with
  | zero => intro acc; exact ⟨[], by simp [saturate]⟩
  | succ n ih =>
    intro acc
    rw [saturate_succ]
    by_cases h : (addNewSupers env acc).length = acc.length
    · rw [if_pos h]; exact ⟨[], by simp⟩
    · rw [if_neg h]
      obtain ⟨e1, he1⟩ := addNewSupers_eq_append env acc
      obtain ⟨e2, he2⟩ := ih (addNewSupers env acc)
      exact ⟨e1 ++ e2, by rw [he2, he1, List.append_assoc]⟩

theorem nodup_saturate (env : TypeEnv) : ∀ (fuel : Nat) (acc : List TypeId),
    acc.Nodup → (saturate env fuel acc).Nodup := by
  intro fuel
  induction fuel with
  | zero => intro acc h; simpa [saturate] using h
  | succ n ih =>
    intro acc h
    rw [saturate_succ]
    by_cases hl : (addNewSupers env acc).length = acc.length
    · rwa [if_pos hl]
    · rw [if_neg hl]
      exact ih _ (nodup_addFrom env acc acc h)

theorem saturate_subset_types (env : TypeEnv) (hC : Closed env) :
    ∀ (fuel : Nat) (acc : List TypeId),
      (∀ x ∈ acc, x ∈ env.types) → ∀ x ∈ saturate env fuel acc, x ∈ env.types := by
  intro fuel
  induction fuel with
  | zero => intro acc h; simpa [saturate] using h
  | succ n ih =>
    intro acc h
    rw [saturate_succ]
    by_cases hl : (addNewSupers env acc).length = acc.length
    · rwa [if_pos hl]
    · rw [if_neg hl]
      refine ih _ ?_
      intro x hx
      rcases mem_addNewSupers.mp hx with hx | ⟨t, ht, hxt⟩
      · exact h x hx
      · exact hC t (h t ht) x hxt

theorem saturate_reaches (env : TypeEnv) (a : TypeId) :
    ∀ (fuel : Nat) (acc : List TypeId),
      (∀ x ∈ acc, Reaches env a x) → ∀ x ∈ saturate env fuel acc, Reaches env a x := by
  intro fuel
  induction fuel with
  | zero => intro acc h; simpa [saturate] using h
  | succ n ih =>
    intro acc h
    rw [saturate_succ]
    by_cases hl : (addNewSupers env acc).length = acc.length
    · rwa [if_pos hl]
    · rw [if_neg hl]
      refine ih _ ?_
      intro x hx
      rcases mem_addNewSupers.mp hx with hx | ⟨t, ht, hxt⟩
      · exact h x hx
      · exact Relation.ReflTransGen.tail (h t ht) hxt

theorem saturate_fix (env : TypeEnv) (hC : Closed env) :
    ∀ (fuel : Nat) (acc : List TypeId),
      acc.Nodup → (∀ x ∈ acc, x ∈ env.types) →
      env.types.length + 1 ≤ fuel + acc.length →
      addNewSupers env (saturate env fuel acc) = saturate env fuel acc := by
  intro fuel
  induction fuel with
  | zero =>
    intro acc hnd hsub hlen
    exfalso
    have hle : acc.length ≤ env.types.length :=
      (List.subperm_of_subset hnd (fun x hx => hsub x hx)).length_le
    omega
  | succ n ih =>
    intro acc hnd hsub hlen
    rw [saturate_succ]
    by_cases h : (addNewSupers env acc).length = acc.length
    · rw [if_pos h]
      exact addNewSupers_of_length_eq h
    · rw [if_neg h]
      refine ih (addNewSupers env acc) (nodup_addFrom env acc acc hnd) ?_ ?_
      · intro x hx
        rcases mem_addNewSupers.mp hx with hx | ⟨t, ht, hxt⟩
        · exact hsub x hx
        · exact hC t (hsub t ht) x hxt
      · obtain ⟨ext, hext⟩ := addNewSupers_eq_append env acc
        have hl2 : (addNewSupers env acc).length = acc.length + ext.length := by
          rw [hext, List.length_append]
        have hpos : 0 < ext.length := by
          rcases Nat.eq_zero_or_pos ext.length with h0 | h0
          · exact absurd (by omega) h
          · exact h0
        omega

theorem self_mem_allSupers (env : TypeEnv) (t : TypeId) : t ∈ allSupers env t := by
  obtain ⟨ext, hext⟩ := saturate_eq_append env env.types.length [t]
  rw [allSupers, hext]
  exact List.mem_append_left _ (List.mem_singleton_self t)

theorem self_subtype (env : TypeEnv) (t : TypeId) : is_subtype_of env t t = true := by
  cases h : env.kind t <;>
    simp [is_subtype_of, h, decide_eq_true_eq, self_mem_allSupers]

theorem mem_allSupers_iff (env : TypeEnv) (hC : Closed env) (a : TypeId)
    (ha : a ∈ env.types) (b : TypeId) :
    b ∈ allSupers env a ↔ Reaches env a b := by
  constructor
  · intro hb
    refine saturate_reaches env a env.types.length [a] ?_ b hb
    intro x hx
    rcases List.mem_singleton.mp hx with rfl
    exact Relation.ReflTransGen.refl
  · intro hreach
    have hfix : addNewSupers env (allSupers env a) = allSupers env a := by
      refine saturate_fix env hC env.types.length [a] (List.nodup_singleton a) ?_ ?_
      · intro x hx; rcases List.mem_singleton.mp hx with rfl; exact ha
      · simp
    have hmem_a : a ∈ allSupers env a := self_mem_allSupers env a
    have hclosed : ∀ t ∈ allSupers env a, ∀ s ∈ env.supers t, s ∈ allSupers env a := by
      intro t ht s hs
      have hmem : s ∈ addNewSupers env (allSupers env a) :=
        mem_addNewSupers.mpr (Or.inr ⟨t, ht, hs⟩)
      rwa [hfix] at hmem
    induction hreach with
    | refl => exact hmem_a
    | tail h1 h2 ih => exact hclosed _ ih _ h2

theorem subtype_iff_reaches (env : TypeEnv) (hC : Closed env) {a : TypeId}
    (ha : a ∈ env.types) (hk : env.kind a ≠ .nullType) (b : TypeId) :
    is_subtype_of env a b = true ↔ Reaches env a b := by
  cases h : env.kind a with
  | nullType => exact absurd h hk
  | plain =>
    simp only [is_subtype_of, h, decide_eq_true_eq]
    exact mem_allSupers_iff env hC a ha b
  | classOrInterface =>
    simp only [is_subtype_of, h, decide_eq_true_eq]
    exact mem_allSupers_iff env hC a ha b

/-! ### Claims C5, C6, C7: the subtype relation -/

/-- C5 counterexample: the claim "is_subtype_of is transitive for all types
A, B, C (including NullType)" fails on the registry env0, where class A
(id 8) lists the null type (id 4) as direct supertype: A is a subtype of
null, null is a subtype of int (NullType.is_subtype_of always returns
true), yet A is not a subtype of int. -/
theorem c5_transitivity_fails_through_null :
    is_subtype_of env0 8 4 = true ∧ is_subtype_of env0 4 2 = true ∧
      is_subtype_of env0 8 2 = false := by
  decide

/-- C5 (amended): transitivity of is_subtype_of holds on a closed registry
whenever the middle type B is not the NullType singleton (whose
is_subtype_of override returns true unconditionally): if A.is_subtype_of(B)
and B.is_subtype_of(C) then A.is_subtype_of(C). -/
theorem c5_amended_transitive_when_middle_not_null (env : TypeEnv)
    (a b c : TypeId) (hC : Closed env) (ha : a ∈ env.types) (hb : b ∈ env.types)
    (hkb : env.kind b ≠ .nullType)
    (hab : is_subtype_of env a b = true) (hbc : is_subtype_of env b c = true) :
    is_subtype_of env a c = true := by
  by_cases hka : env.kind a = .nullType
  · simp [is_subtype_of, hka]
  · have h1 : Reaches env a b := (subtype_iff_reaches env hC ha hka b).mp hab
    have h2 : Reaches env b c := (subtype_iff_reaches env hC hb hkb c).mp hbc
    exact (subtype_iff_reaches env hC ha hka c).mpr (h1.trans h2)

/-- C5 witness: in env0, Circle (7) is a subtype of Shape (6) and Shape of
Object (5); the amended transitivity theorem yields Circle below Object. -/
theorem c5_amended_witness :
    Closed env0 ∧ is_subtype_of env0 7 5 = true :=
  ⟨by decide, c5_amended_transitive_when_middle_not_null env0 7 6 5 (by decide)
    (by decide) (by decide) (by decide) (by decide) (by decide)⟩

/-- C6 counterexample: the claim "for every pair of types is_subtype_of
returns true iff the other type is reachable along direct-supertype edges"
fails when the left type is the NullType singleton (id 4 in env0): the
override returns true for int (id 2), which is not reachable from null. -/
theorem c6_null_subtype_without_reachability :
    is_subtype_of env0 4 2 = true ∧ ¬ Reaches env0 4 2 := by
  refine ⟨by decide, ?_⟩
  intro h
  have key : ∀ x, Reaches env0 4 x → x = 4 := by
    intro x hx
    induction hx with
    | refl => rfl
    | tail h1 h2 ih =>
      rw [ih] at h2
      simp [env0] at h2
  exact absurd (key 2 h) (by decide)

/-- C6 (amended): for every type a that is not the NullType singleton (so
that the closure computation of Type.is_subtype_of is the one dispatched),
on any finite closed registry graph — diamonds and cycles included — the
computed ancestor list is duplicate-free, the saturation loop has reached
its fixpoint within the fuel bound (one more pass adds nothing, i.e. the
while loop terminates there), and is_subtype_of env a b is true exactly
when b is reachable from a by following direct-supertype edges zero or
more times. -/
theorem c6_amended_closure_computes_reachability (env : TypeEnv) (a b : TypeId)
    (hC : Closed env) (ha : a ∈ env.types) (hk : env.kind a ≠ .nullType) :
    (allSupers env a).Nodup ∧
      addNewSupers env (allSupers env a) = allSupers env a ∧
      (is_subtype_of env a b = true ↔ Reaches env a b) := by
  refine ⟨nodup_saturate env env.types.length [a] (List.nodup_singleton a), ?_,
    subtype_iff_reaches env hC ha hk b⟩
  refine saturate_fix env hC env.types.length [a] (List.nodup_singleton a) ?_ (by simp)
  intro x hx
  rcases List.mem_singleton.mp hx with rfl
  exact ha

/-- C6 witness: Circle (7) in env0 sits on a diamond (Circle lists Shape
and Object, Shape lists Object); its ancestor list is duplicate-free and
saturated, and subtyping towards Object (5) coincides with reachability. -/
theorem c6_amended_witness :
    Closed env0 ∧
      ((allSupers env0 7).Nodup ∧
        addNewSupers env0 (allSupers env0 7) = allSupers env0 7 ∧
        (is_subtype_of env0 7 5 = true ↔ Reaches env0 7 5)) :=
  ⟨by decide, c6_amended_closure_computes_reachability env0 7 5 (by decide)
    (by decide) (by decide)⟩

/-- C7 counterexample: the claim "A.is_supertype_of(B) returns exactly the
same boolean as B.is_subtype_of(A), including NullType on either side"
fails at A = B = NullType (id 4 in env0): NullType.is_supertype_of always
returns false while NullType.is_subtype_of always returns true. -/
theorem c7_null_supertype_asymmetry :
    is_supertype_of env0 4 4 = false ∧ is_subtype_of env0 4 4 = true := by
  decide

/-- C7 (amended): whenever A is not the NullType singleton,
A.is_supertype_of(B) returns exactly B.is_subtype_of(A); when A is the
NullType singleton its override returns false unconditionally (which
differs from B.is_subtype_of(null) exactly when null is B itself or a
declared ancestor of B). -/
theorem c7_amended_supertype_flip (env : TypeEnv) (a b : TypeId) :
    (env.kind a ≠ .nullType → is_supertype_of env a b = is_subtype_of env b a) ∧
      (env.kind a = .nullType → is_supertype_of env a b = false) := by
  constructor
  · intro hk
    cases h : env.kind a with
    | nullType => exact absurd h hk
    | plain => simp [is_supertype_of, h]
    | classOrInterface => simp [is_supertype_of, h]
  · intro hk
    simp [is_supertype_of, hk]

/-- C7 witness: with A = Shape (6), B = Circle (7) in env0 the flip
equation holds. -/
theorem c7_amended_witness :
    is_supertype_of env0 6 7 = is_subtype_of env0 7 6 :=
  (c7_amended_supertype_flip env0 6 7).1 (by decide)

/-! ### Claim C8: method_named resolves to the first hit in depth-first preorder -/

theorem searchSupers_cons (env : TypeEnv)
    (rec : TypeId → String → Except PyError JMethod)
    (s : TypeId) (rest : List TypeId) (n : String) (t : TypeId) :
    searchSupers env rec (s :: rest) n t =
      match rec s n with
      | .ok m => .ok m
      | .error e =>
        if isNoSuchMethod e then searchSupers env rec rest n t else .error e := rfl

theorem searchSupers_cons_ok {env : TypeEnv}
    {rec : TypeId → String → Except PyError JMethod}
    {s : TypeId} {rest : List TypeId} {n : String} {t : TypeId} {m : JMethod}
    (h : rec s n = .ok m) :
    searchSupers env rec (s :: rest) n t = .ok m := by
  rw [searchSupers_cons, h]

theorem searchSupers_cons_error {env : TypeEnv}
    {rec : TypeId → String → Except PyError JMethod}
    {s : TypeId} {rest : List TypeId} {n : String} {t : TypeId} {e : PyError}
    (h : rec s n = .error e) :
    searchSupers env rec (s :: rest) n t =
      if isNoSuchMethod e then searchSupers env rec rest n t else .error e := by
  rw [searchSupers_cons, h]

theorem methodStep_own {env : TypeEnv}
    {rec : TypeId → String → Except PyError JMethod} {t : TypeId} {n : String}
    {m : JMethod} (hk : env.kind t = .classOrInterface)
    (hd : dictGet (env.methods t) n = some m) :
    methodStep env rec t n = .ok m := by
  unfold methodStep
  rw [hk, hd]

theorem methodStep_eq_search {env : TypeEnv}
    {rec : TypeId → String → Except PyError JMethod} {t : TypeId} {n : String}
    (hk : env.kind t = .classOrInterface)
    (hd : dictGet (env.methods t) n = none) :
    methodStep env rec t n = searchSupers env rec (env.supers t) n t := by
  unfold methodStep
  rw [hk, hd]

theorem methodStep_null {env : TypeEnv}
    {rec : TypeId → String → Except PyError JMethod} {t : TypeId} {n : String}
    (hk : env.kind t = .nullType) :
    methodStep env rec t n = .error (.noSuchMethod (env.name t) n) := by
  unfold methodStep
  rw [hk]

theorem preorderList_cons (rec : TypeId → List TypeId) (s : TypeId)
    (rest : List TypeId) :
    preorderList rec (s :: rest) = rec s ++ preorderList rec rest := rfl

theorem mem_preorderList (rec : TypeId → List TypeId) :
    ∀ (ss : List TypeId) (u : TypeId),
      u ∈ preorderList rec ss ↔ ∃ s ∈ ss, u ∈ rec s := by
  intro ss
  induction ss with
  | nil => intro u; simp [preorderList]
  | cons s rest ih =>
    intro u
    rw [preorderList_cons]
    simp only [List.mem_append, ih, List.mem_cons]
    constructor
    · rintro (h | ⟨x, hx, hux⟩)
      · exact ⟨s, Or.inl rfl, h⟩
      · exact ⟨x, Or.inr hx, hux⟩
    · rintro ⟨x, hx | hx, hux⟩
      · exact Or.inl (hx ▸ hux)
      · exact Or.inr ⟨x, hx, hux⟩

theorem firstHit_append (env : TypeEnv) (n : String) : ∀ (l1 l2 : List TypeId),
    firstHit env n (l1 ++ l2) =
      match firstHit env n l1 with
      | some m => some m
      | none => firstHit env n l2 := by
  intro l1
  induction l1 with
  | nil => intro l2; rfl
  | cons u l ih =>
    intro l2
    rw [List.cons_append]
    cases h : dictGet (env.methods u) n with
    | some m => simp [firstHit, h]
    | none => simp [firstHit, h]; exact ih l2

theorem hitResult_some {env : TypeEnv} {n : String} {t : TypeId} {l : List TypeId}
    {m : JMethod} (h : firstHit env n l = some m) :
    hitResult env n t l = .ok m := by
  unfold hitResult
  rw [h]

theorem hitResult_none {env : TypeEnv} {n : String} {t : TypeId} {l : List TypeId}
    (h : firstHit env n l = none) :
    hitResult env n t l = .error (.noSuchMethod (env.name t) n) := by
  unfold hitResult
  rw [h]

theorem hitResult_append_none {env : TypeEnv} {n : String} {t : TypeId}
    {l1 l2 : List TypeId} (h : firstHit env n l1 = none) :
    hitResult env n t (l1 ++ l2) = hitResult env n t l2 := by
  unfold hitResult
  rw [firstHit_append, h]

theorem hitResult_append_some {env : TypeEnv} {n : String} {t : TypeId}
    {l1 l2 : List TypeId} {m : JMethod} (h : firstHit env n l1 = some m) :
    hitResult env n t (l1 ++ l2) = .ok m := by
  unfold hitResult
  rw [firstHit_append, h]

theorem searchSupers_char (env : TypeEnv) (n : String) (fuel : Nat)
    (IH : ∀ t, method_named env fuel t n ≠ .error .recursionError →
      (∀ u ∈ preorder env fuel t, goodNode env u) →
      method_named env fuel t n = hitResult env n t (preorder env fuel t)) :
    ∀ (ss : List TypeId) (t : TypeId),
      searchSupers env (method_named env fuel) ss n t ≠ .error .recursionError →
      (∀ s ∈ ss, ∀ u ∈ preorder env fuel s, goodNode env u) →
      searchSupers env (method_named env fuel) ss n t =
        hitResult env n t (preorderList (preorder env fuel) ss) := by
  intro ss
  induction ss with
  | nil => intro t _ _; rfl
  | cons s rest ih =>
    intro t hne hgood
    have hgs : ∀ u ∈ preorder env fuel s, goodNode env u :=
      hgood s (List.mem_cons_self s rest)
    have hgr : ∀ x ∈ rest, ∀ u ∈ preorder env fuel x, goodNode env u :=
      fun x hx => hgood x (List.mem_cons_of_mem s hx)
    rw [preorderList_cons]
    cases hmn : method_named env fuel s n with
    | ok m =>
      rw [searchSupers_cons_ok hmn]
      have hch := IH s (by rw [hmn]; intro h; exact Except.noConfusion h) hgs
      rw [hmn] at hch
      cases hf : firstHit env n (preorder env fuel s) with
      | some m2 =>
        rw [hitResult_some hf] at hch
        injection hch with h2
        rw [h2]
        exact (hitResult_append_some hf).symm
      | none =>
        rw [hitResult_none hf] at hch
        exact Except.noConfusion hch
    | error e =>
      have hee := @searchSupers_cons_error env (method_named env fuel) s rest n t e hmn
      by_cases hns : isNoSuchMethod e = true
      · have hner : method_named env fuel s n ≠ .error .recursionError := by
          rw [hmn]
          intro h
          injection h with h2
          rw [h2] at hns
          simp [isNoSuchMethod] at hns
        have hch := IH s hner hgs
        rw [hmn] at hch
        have hf : firstHit env n (preorder env fuel s) = none := by
          cases hf2 : firstHit env n (preorder env fuel s) with
          | some m2 =>
            rw [hitResult_some hf2] at hch
            exact Except.noConfusion hch
          | none => rfl
        rw [hee, if_pos hns] at hne ⊢
        rw [ih t hne hgr]
        exact (hitResult_append_none hf).symm
      · rw [hee, if_neg hns] at hne
        have hner : e ≠ .recursionError := by
          intro h
          exact hne (by rw [h])
        have hch := IH s
          (by rw [hmn]; intro h; injection h with h2; exact hner h2) hgs
        rw [hmn] at hch
        exfalso
        cases hf2 : firstHit env n (preorder env fuel s) with
        | some m2 =>
          rw [hitResult_some hf2] at hch
          exact Except.noConfusion hch
        | none =>
          rw [hitResult_none hf2] at hch
          injection hch with h2
          rw [h2] at hns
          simp [isNoSuchMethod] at hns

/-- C8: on a hierarchy of class-or-interface nodes (the null singleton, with
its empty table and empty supertype list, may appear as a node), whenever
the lookup does not run into the recursion limit, method_named returns the
method found at the first position of the depth-first preorder listing of
the hierarchy whose own table contains the name — so the own table is
consulted first (a same-named own method shadows any inherited one), direct
supertypes are searched recursively depth-first in declared order, and if
the name is absent from the entire reachable hierarchy the result is the
NoSuchMethod failure naming the receiver type. -/
theorem c8_method_named_first_hit_in_preorder (env : TypeEnv) :
    ∀ (fuel : Nat) (t : TypeId) (n : String),
      method_named env fuel t n ≠ .error .recursionError →
      (∀ u ∈ preorder env fuel t, goodNode env u) →
      method_named env fuel t n = hitResult env n t (preorder env fuel t) := by
  intro fuel
  induction fuel with
  | zero => intro t n hne _; exact absurd rfl hne
  | succ f ih =>
    intro t n hne hgood
    have hpre : preorder env (f+1) t =
        t :: preorderList (preorder env f) (env.supers t) := rfl
    have hgt : goodNode env t := by
      refine hgood t ?_
      rw [hpre]
      exact List.mem_cons_self _ _
    have hmn1 : method_named env (f+1) t n =
        methodStep env (method_named env f) t n := rfl
    rcases hgt with hk | ⟨hk, hm, hs⟩
    · cases hd : dictGet (env.methods t) n with
      | some m =>
        rw [hmn1, methodStep_own hk hd, hpre]
        exact (hitResult_some (by simp [firstHit, hd])).symm
      | none =>
        rw [hmn1, methodStep_eq_search hk hd]
        rw [hmn1, methodStep_eq_search hk hd] at hne
        have hgs : ∀ s ∈ env.supers t, ∀ u ∈ preorder env f s, goodNode env u := by
          intro s hsm u hu
          refine hgood u ?_
          rw [hpre]
          exact List.mem_cons_of_mem _
            ((mem_preorderList (preorder env f) (env.supers t) u).mpr ⟨s, hsm, hu⟩)
        rw [searchSupers_char env n f (fun u => ih u n) (env.supers t) t hne hgs, hpre]
        unfold hitResult
        rw [show firstHit env n (t :: preorderList (preorder env f) (env.supers t)) =
          firstHit env n (preorderList (preorder env f) (env.supers t)) from by
            simp [firstHit, hd]]
    · rw [hmn1, methodStep_null hk, hpre, hs]
      exact (hitResult_none (by simp [firstHit, preorderList, dictGet, hm])).symm

/-- C8 witness: resolving "scale" on Circle (7) in env0 goes through the
preorder Circle, Shape, Object (twice, via the diamond) and finds Shape's
method; "area" on Circle is shadowed by Circle's own entry. -/
theorem c8_witness :
    method_named env0 9 7 "scale" = hitResult env0 "scale" 7 (preorder env0 9 7) :=
  c8_method_named_first_hit_in_preorder env0 9 7 "scale" (by decide) (by decide)

/-! ### Claim C9: argument failures preempt call-site arity errors -/

theorem check_types_succ (env : TypeEnv) (fuel : Nat) (e : Expr) :
    check_types env (fuel+1) e = checkStep env (check_types env fuel) fuel e := rfl

theorem collectArgs_cons (env : TypeEnv) (rec : Expr → Except PyError Unit)
    (fuel : Nat) (a : Expr) (rest : List Expr) :
    collectArgs env rec fuel (a :: rest) =
      match static_type env fuel a with
      | .error e => .error e
      | .ok t =>
        match rec a with
        | .error e => .error e
        | .ok _ =>
          match collectArgs env rec fuel rest with
          | .error e => .error e
          | .ok ts => .ok (t :: ts) := rfl

theorem firstFail_cons (env : TypeEnv) (fuel : Nat) (a : Expr) (rest : List Expr) :
    firstFail env fuel (a :: rest) =
      match argStep env fuel a with
      | .error e => some e
      | .ok _ => firstFail env fuel rest := rfl

theorem collectArgs_of_firstFail_some (env : TypeEnv) (fuel : Nat) :
    ∀ (args : List Expr) (e : PyError),
      firstFail env fuel args = some e →
      collectArgs env (check_types env fuel) fuel args = .error e := by
  intro args
  induction args with
  | nil => intro e h; exact Option.noConfusion h
  | cons a rest ih =>
    intro e h
    rw [firstFail_cons] at h
    cases hst : static_type env fuel a with
    | error es =>
      have has : argStep env fuel a = .error es := by unfold argStep; rw [hst]
      rw [has] at h
      injection h with h2
      rw [collectArgs_cons, hst, h2]
    | ok t =>
      have has1 : argStep env fuel a = check_types env fuel a := by
        unfold argStep; rw [hst]
      cases hct : check_types env fuel a with
      | error ec =>
        rw [has1, hct] at h
        injection h with h2
        rw [collectArgs_cons, hst, hct, h2]
      | ok u =>
        rw [has1, hct] at h
        rw [collectArgs_cons, hst, hct, ih e h]

theorem collectArgs_of_firstFail_none (env : TypeEnv) (fuel : Nat) :
    ∀ (args : List Expr),
      firstFail env fuel args = none →
      ∃ ts, collectArgs env (check_types env fuel) fuel args = .ok ts := by
  intro args
  induction args with
  | nil => intro _; exact ⟨[], rfl⟩
  | cons a rest ih =>
    intro h
    rw [firstFail_cons] at h
    cases hst : static_type env fuel a with
    | error es =>
      exfalso
      have has : argStep env fuel a = .error es := by unfold argStep; rw [hst]
      rw [has] at h
      exact Option.noConfusion h
    | ok t =>
      have has1 : argStep env fuel a = check_types env fuel a := by
        unfold argStep; rw [hst]
      cases hct : check_types env fuel a with
      | error ec =>
        exfalso
        rw [has1, hct] at h
        exact Option.noConfusion h
      | ok u =>
        rw [has1, hct] at h
        obtain ⟨ts, hts⟩ := ih h
        exact ⟨t :: ts, by rw [collectArgs_cons, hst, hct, hts]⟩

/-- C9: in both MethodCall.check_types and ConstructorCall.check_types,
once the call resolves its receiver stage (declared type found, primitive
guard false, method resolved / instantiable class with a constructor), a
failure in any argument subexpression — taken in left-to-right order, each
argument contributing its static_type and then its own check_types — is
reported as the result, and the call's own arity error is raised only when
every argument stage has succeeded, so error discovery is deepest-first
and left-to-right. -/
theorem c9_argument_errors_precede_call_site_errors :
    (∀ (env : TypeEnv) (fuel : Nat) (r : Expr) (nm : String) (args : List Expr)
        (t : TypeId) (method : JMethod) (e : PyError),
      declaredTypeAttr env r = some t →
      primReceiver env t = false →
      method_named env fuel t nm = .ok method →
      firstFail env fuel args = some e →
      check_types env (fuel+1) (.methodCall r nm args) = .error e)
  ∧ (∀ (env : TypeEnv) (fuel : Nat) (r : Expr) (nm : String) (args : List Expr)
        (t : TypeId) (method : JMethod),
      declaredTypeAttr env r = some t →
      primReceiver env t = false →
      method_named env fuel t nm = .ok method →
      firstFail env fuel args = none →
      method.argument_types.length ≠ args.length →
      check_types env (fuel+1) (.methodCall r nm args) =
        .error (.methodArity (env.name t) nm method.argument_types.length
          args.length))
  ∧ (∀ (env : TypeEnv) (fuel : Nat) (ty : TypeId) (args : List Expr) (e : PyError),
      ty ≠ env.nullId →
      primReceiver env ty = false →
      env.kind ty = .classOrInterface →
      firstFail env fuel args = some e →
      check_types env (fuel+1) (.constructorCall ty args) = .error e)
  ∧ (∀ (env : TypeEnv) (fuel : Nat) (ty : TypeId) (args : List Expr),
      ty ≠ env.nullId →
      primReceiver env ty = false →
      env.kind ty = .classOrInterface →
      firstFail env fuel args = none →
      (env.ctorArgs ty).length ≠ args.length →
      check_types env (fuel+1) (.constructorCall ty args) =
        .error (.ctorArity (env.name ty) (env.ctorArgs ty).length args.length)) := by
  refine ⟨?_, ?_, ?_, ?_⟩
  · intro env fuel r nm args t method e hdt hprim hmn hff
    have hcoll := collectArgs_of_firstFail_some env fuel args e hff
    simp [check_types_succ, checkStep, hdt, hprim, hmn, hcoll]
  · intro env fuel r nm args t method hdt hprim hmn hff hlen
    obtain ⟨ts, hcoll⟩ := collectArgs_of_firstFail_none env fuel args hff
    simp [check_types_succ, checkStep, hdt, hprim, hmn, hcoll, hlen]
  · intro env fuel ty args e hnn hprim hk hff
    have hcoll := collectArgs_of_firstFail_some env fuel args e hff
    simp [check_types_succ, checkStep, hnn, hprim, hk, hcoll]
  · intro env fuel ty args hnn hprim hk hff hlen
    obtain ⟨ts, hcoll⟩ := collectArgs_of_firstFail_none env fuel args hff
    simp [check_types_succ, checkStep, hnn, hprim, hk, hcoll, hlen]

/-- C9 witness: on env0, a Shape-typed receiver calling scale with a broken
argument (a method call on a literal) reports the argument's failure, and
with no arguments it reports the arity error expected 1 got 0. -/
theorem c9_witness :
    check_types env0 9 (.methodCall (.var "r" 6) "scale"
        [.methodCall (.literal "5" 2) "x" []]) =
      .error (.attributeError "declared_type") ∧
    check_types env0 9 (.methodCall (.var "r" 6) "scale" []) =
      .error (.methodArity "Shape" "scale" 1 0) :=
  ⟨c9_argument_errors_precede_call_site_errors.1 env0 8 (.var "r" 6) "scale"
      [.methodCall (.literal "5" 2) "x" []] 6 ⟨"scale", [3], some 0⟩
      (.attributeError "declared_type") rfl (by decide) rfl rfl,
   c9_argument_errors_precede_call_site_errors.2.1 env0 8 (.var "r" 6) "scale" [] 6
      ⟨"scale", [3], some 0⟩ rfl (by decide) rfl rfl (by decide)⟩

/-! ### Claims C1, C2, C3, C4, C10 -/

def totalStaticVariant : Expr → Bool
  | .methodCall _ _ _ => false
  | _ => true

def exceptOk {α : Type} : Except PyError α → Bool
  | .ok _ => true
  | .error _ => false

/-- C1 counterexample: the claim "static_type() always succeeds for every
variant, in particular for a MethodCall with a literal receiver" is false:
MethodCall.static_type reads receiver.declared_type, an attribute the
Literal variant does not carry, so the int literal receiver raises
AttributeError. -/
theorem c1_static_type_raises_on_literal_receiver :
    static_type env0 9 (.methodCall (.literal "5" 2) "toString" []) =
      .error (.attributeError "declared_type") := rfl

/-- C1 (amended): static_type() is total for the Variable, Literal,
NullLiteral and ConstructorCall variants; MethodCall.static_type() can
fail, with AttributeError when the receiver carries no declared_type
attribute (literal, method call or constructor call receivers) and with
the method-resolution failure when the name does not resolve. -/
theorem c1_amended_static_type_total_on_non_method_call (env : TypeEnv)
    (fuel : Nat) (e : Expr) (h : totalStaticVariant e = true) :
    exceptOk (static_type env fuel e) = true := by
  cases e with
  | var nm dt => rfl
  | literal v ty => rfl
  | nullLiteral => rfl
  | methodCall r mn args => exact absurd h (by simp [totalStaticVariant])
  | constructorCall ty args => rfl

/-- C1 witness: a constructor call's static type is computed successfully. -/
theorem c1_amended_witness :
    totalStaticVariant (.constructorCall 7 []) = true ∧
      exceptOk (static_type env0 9 (.constructorCall 7 [])) = true :=
  ⟨rfl, c1_amended_static_type_total_on_non_method_call env0 9
    (.constructorCall 7 []) rfl⟩

def isNoSuchMethodResult : Except PyError Unit → Bool
  | .error (.noSuchMethod _ _) => true
  | _ => false

/-- C2 counterexample: the claim "a MethodCall on a null-typed receiver
fails with NoSuchMethodError" is false: on a null literal receiver
check_types raises the JavaTypeError "Type null does not have methods",
because NullType.is_subtype_of returns true against the primitive guard;
the NoSuchMethod branch is never reached. -/
theorem c2_null_receiver_gets_type_error :
    check_types env0 9 (.methodCall .nullLiteral "foo" []) =
        .error (.noMethods "null") ∧
      isNoSuchMethodResult
        (check_types env0 9 (.methodCall .nullLiteral "foo" [])) = false :=
  ⟨rfl, rfl⟩

/-- C2 (amended): for every MethodCall whose receiver's declared type is
the NullType singleton, check_types fails with the "type has no methods"
JavaTypeError (naming the null type), for every method name and argument
list — not with NoSuchMethodError. -/
theorem c2_amended_null_receiver_no_methods_error (env : TypeEnv) (fuel : Nat)
    (r : Expr) (nm : String) (args : List Expr)
    (hdt : declaredTypeAttr env r = some env.nullId)
    (hk : env.kind env.nullId = .nullType) :
    check_types env (fuel+1) (.methodCall r nm args) =
      .error (.noMethods (env.name env.nullId)) := by
  have hprim : primReceiver env env.nullId = true := by
    simp [primReceiver, is_subtype_of, hk]
  simp [check_types_succ, checkStep, hdt, hprim]

/-- C2 witness: a null-typed variable receiver, method name "equals". -/
theorem c2_amended_witness :
    check_types env0 9 (.methodCall (.var "x" 4) "equals" [.nullLiteral]) =
      .error (.noMethods "null") :=
  c2_amended_null_receiver_no_methods_error env0 8 (.var "x" 4) "equals"
    [.nullLiteral] rfl rfl

/-- C3: the claim says check_types determines the receiver's type as the
receiver's static type, so 5.toString() fails with "type has no methods";
the code instead reads receiver.declared_type, which the Literal variant
does not carry, so the call raises AttributeError — evaluation of the
embedded checker at the claim's own example. -/
theorem c3_literal_receiver_attribute_error :
    check_types env0 9 (.methodCall (.literal "5" 2) "toString" []) =
        .error (.attributeError "declared_type") ∧
      check_types env0 9 (.methodCall (.literal "5" 2) "toString" []) ≠
        .error (.noMethods "int") := by
  refine ⟨rfl, ?_⟩
  decide

/-- C4 counterexample: the claim "instantiating void fails with the
not-instantiable TypeError" is false: the primitive guard of
ConstructorCall.check_types tests only boolean, int and double, so void
slips through and the access to the missing constructor attribute of the
plain Type raises AttributeError. -/
theorem c4_void_constructor_attribute_error :
    check_types env0 9 (.constructorCall 0 []) =
        .error (.attributeError "constructor") ∧
      check_types env0 9 (.constructorCall 0 []) ≠
        .error (.notInstantiable "void") := by
  refine ⟨rfl, ?_⟩
  decide

/-- C4 (amended): instantiating the null type fails with "Type null is not
instantiable"; instantiating boolean, int or double fails with the
not-instantiable error naming the type; instantiating void (a plain Type
that is none of the three guarded primitives) instead raises
AttributeError on the missing constructor attribute. -/
theorem c4_amended_not_instantiable (env : TypeEnv) (fuel : Nat)
    (args : List Expr) :
    (check_types env (fuel+1) (.constructorCall env.nullId args) =
        .error (.notInstantiable "null"))
  ∧ (∀ p, (p = env.booleanId ∨ p = env.intId ∨ p = env.doubleId) →
      p ≠ env.nullId →
      check_types env (fuel+1) (.constructorCall p args) =
        .error (.notInstantiable (env.name p)))
  ∧ (∀ v, v ≠ env.nullId → env.kind v = .plain → primReceiver env v = false →
      check_types env (fuel+1) (.constructorCall v args) =
        .error (.attributeError "constructor")) := by
  refine ⟨?_, ?_, ?_⟩
  · simp [check_types_succ, checkStep]
  · intro p hp hnn
    have hprim : primReceiver env p = true := by
      rcases hp with rfl | rfl | rfl
      · simp [primReceiver, self_subtype]
      · simp [primReceiver, self_subtype]
      · simp [primReceiver, self_subtype]
    simp [check_types_succ, checkStep, hnn, hprim]
  · intro v hnn hk hprim
    simp [check_types_succ, checkStep, hnn, hk, hprim]

/-- C4 witness: in env0, new null() and new boolean() report not
instantiable, while new void() raises the attribute error. -/
theorem c4_amended_witness :
    check_types env0 9 (.constructorCall 4 []) =
        .error (.notInstantiable "null") ∧
      check_types env0 9 (.constructorCall 1 []) =
        .error (.notInstantiable "boolean") ∧
      check_types env0 9 (.constructorCall 0 []) =
        .error (.attributeError "constructor") :=
  ⟨(c4_amended_not_instantiable env0 8 []).1,
   (c4_amended_not_instantiable env0 8 []).2.1 1 (Or.inl rfl) (by decide),
   (c4_amended_not_instantiable env0 8 []).2.2 0 (by decide) rfl (by decide)⟩

/-- C10: the claim says each Type owns a defensively copied supertype
container; in the code `Type.__init__(self, name, direct_supertypes=[])`
stores the caller's list object itself and the default is one shared list,
so appending to the supertype list of Type("A") changes the supertype list
observed on the independently constructed Type("B") from [] to the
appended element. -/
theorem c10_shared_default_supertype_list :
    direct_supertypes initHeap (mkTypeDefault "B") = [] ∧
      direct_supertypes (heapAppend initHeap (mkTypeDefault "A").supRef 5)
        (mkTypeDefault "B") = [5] := by
  refine ⟨rfl, ?_⟩
  decide
